import Mathlib

/-!
Verification of the bors event-dispatch core: the event dispatcher
(`handle_bors_event`), the comment-handling protocol (`handle_comment`),
the command interpreter (`parse_commands`), the try-build orchestrator
(`command_try_build`) and the workflow correlator
(`handle_workflow_started` / `handle_workflow_completed` /
`handle_check_suite_completed`).

External collaborators (repository API client, persistence, registry) are
modelled by an explicit oracle `Env`; each handler returns its updated
state, the ordered trace of external effects it performed, and an
`Except String Unit` result mirroring `anyhow::Result<()>`.
-/

/-- A repository identity, `owner/name`. -/
structure GithubRepoName where
  owner : String
  name : String
deriving DecidableEq, Repr

/-- A comment posted on a pull request, as carried by a `BorsEvent`. -/
structure PullRequestComment where
  repository : GithubRepoName
  author : String
  prNumber : Nat
  text : String
deriving DecidableEq, Repr

/-- Payload of a `WorkflowStarted` CI event. -/
structure WorkflowStartedPayload where
  repository : GithubRepoName
  branch : String
  externalId : Nat
deriving DecidableEq, Repr

/-- Payload of a `WorkflowCompleted` CI event. -/
structure WorkflowCompletedPayload where
  repository : GithubRepoName
  branch : String
  externalId : Nat
  succeeded : Bool
deriving DecidableEq, Repr

/-- Payload of a `CheckSuiteCompleted` CI event. -/
structure CheckSuiteCompletedPayload where
  repository : GithubRepoName
  branch : String
  externalId : Nat
  succeeded : Bool
deriving DecidableEq, Repr

/-- The closed union of inbound events (`BorsEvent` in `event.rs`). -/
inductive BorsEvent where
  | comment (c : PullRequestComment)
  | installationsChanged
  | workflowStarted (p : WorkflowStartedPayload)
  | workflowCompleted (p : WorkflowCompletedPayload)
  | checkSuiteCompleted (p : CheckSuiteCompletedPayload)
deriving DecidableEq, Repr

/-- The closed union of recognized commands (`BorsCommand`). -/
inductive BorsCommand where
  | ping
  | tryBuild
deriving DecidableEq, Repr

/-- Parse failures of the command interpreter (`CommandParseError`). -/
inductive CommandParseError where
  | missingCommand
  | unknownCommand (token : String)
deriving DecidableEq, Repr

/-- Status of a persisted try build. -/
inductive BuildStatus where
  | pending
  | running
  | succeeded
  | failed
  | cancelled
deriving DecidableEq, Repr

/-- `Succeeded`, `Failed` and `Cancelled` are the terminal statuses. -/
def BuildStatus.isTerminal : BuildStatus → Bool
  | .succeeded => true
  | .failed => true
  | .cancelled => true
  | _ => false

/-- A persisted `TryBuild` row. -/
structure TryBuild where
  repository : GithubRepoName
  prNumber : Nat
  branchName : String
  requestedBy : String
  status : BuildStatus
  createdAt : Nat
  externalIds : List Nat
deriving DecidableEq, Repr

/-- A pull-request snapshot as returned by `RepositoryClient.getPullRequest`. -/
structure PullRequest where
  number : Nat
  headRef : String
  author : String
deriving DecidableEq, Repr

/-- Modelled from the spec: `TRY_BRANCH_NAME`, the single reserved
repository-scoped ref reused by every try build (defined in the missing
`trybuild.rs`). -/
def TRY_BRANCH_NAME : String := "automation/bors/try"

/-- `branch == TRY_BRANCH_NAME` (from `mod.rs`). -/
def is_bors_observed_branch (branch : String) : Bool :=
  branch = TRY_BRANCH_NAME

/-- Modelled from the spec: the trigger token that addresses the bot
(the parser in `command/parser.rs` is not part of the core source). -/
def botTrigger : String := "@bors"

/-- Split a character list at every occurrence of the separator. -/
def splitOnChar (sep : Char) : List Char → List (List Char)
  | [] => [[]]
  | c :: cs =>
    if c = sep then [] :: splitOnChar sep cs
    else
      match splitOnChar sep cs with
      | [] => [[c]]
      | w :: ws => (c :: w) :: ws

/-- Modelled from the spec: parse one line of a comment. A line addressing
the bot is followed by a command keyword; a missing keyword yields
`MissingCommand`, an unrecognized keyword yields `UnknownCommand(token)`;
lines not addressing the bot yield nothing. -/
def parseLine (line : List Char) : Option (Except CommandParseError BorsCommand) :=
  match (splitOnChar ' ' line).filter (fun w => w ≠ []) with
  | [] => none
  | w :: rest =>
    if String.mk w = botTrigger then
      match rest with
      | [] => some (Except.error CommandParseError.missingCommand)
      | kw :: _ =>
        if String.mk kw = "ping" then some (Except.ok BorsCommand.ping)
        else if String.mk kw = "try" then some (Except.ok BorsCommand.tryBuild)
        else some (Except.error (CommandParseError.unknownCommand (String.mk kw)))
    else none

/-- Modelled from the spec: `parse_commands`, the pure command interpreter.
Each line of the comment (split at the newline character) is parsed
independently into an ordered sequence of
`Result<Command, CommandParseError>`. -/
def parse_commands (text : String) : List (Except CommandParseError BorsCommand) :=
  (splitOnChar (Char.ofNat 10) text.toList).filterMap parseLine

/-- External calls a handler can perform, recorded in order in a trace. -/
inductive Effect where
  | getPullRequest (pr : Nat)
  | postComment (pr : Nat) (text : String)
  | pushBranch (repo : GithubRepoName) (pr : Nat)
  | reloadRepositories
deriving DecidableEq, Repr

/-- The oracle determining the outcome of each external call. -/
structure Env where
  getPullRequest : Nat → Except String PullRequest
  postComment : Nat → String → Except String Unit
  pushBranch : GithubRepoName → Nat → Except String Unit
  reloadRepositories : Except String (List GithubRepoName)

/-- `anyhow::Context::context`: prefix an error with context. -/
def withContext (ctx msg : String) : String :=
  ctx ++ ": " ++ msg

/-- The text replied on a parse failure (from `handle_comment`). -/
def parseErrorMessage : CommandParseError → String
  | CommandParseError.missingCommand => "Missing command."
  | CommandParseError.unknownCommand command =>
      "Unknown command \"" ++ command ++ "\"."

/-- Modelled from the spec: the liveness reply posted by `ping`
(`command_ping` in the missing `ping.rs`). -/
def pongText : String := "Pong 🏓!"

/-- Modelled from the spec: the acknowledgement reply posted after a try
build is started (missing `trybuild.rs`). -/
def tryAckText : String := "Trying commit."

/-- Modelled from the spec: the result reply referencing the external run
(missing `workflow.rs`). -/
def resultText (extId : Nat) (succeeded : Bool) : String :=
  (if succeeded then "Try build succeeded" else "Try build failed")
    ++ " (run " ++ toString extId ++ ")."

/-- Modelled from the spec: cancel the first existing non-terminal
`TryBuild` for `(repo, pr_number)`, if present (orchestrator step 1,
missing `trybuild.rs`). -/
def cancelFirstNonTerminal (repo : GithubRepoName) (pr : Nat) :
    List TryBuild → List TryBuild
  | [] => []
  | b :: rest =>
    if b.repository = repo ∧ b.prNumber = pr ∧ b.status.isTerminal = false then
      { b with status := BuildStatus.cancelled } :: rest
    else
      b :: cancelFirstNonTerminal repo pr rest

/-- The fresh `Pending` row persisted by the orchestrator. -/
def mkPendingBuild (repo : GithubRepoName) (pr : PullRequest)
    (requester : String) : TryBuild :=
  { repository := repo
    prNumber := pr.number
    branchName := TRY_BRANCH_NAME
    requestedBy := requester
    status := BuildStatus.pending
    createdAt := 0
    externalIds := [] }

/-- Modelled from the spec: `command_try_build` / `startTryBuild`
(missing `trybuild.rs`). In order: cancel any existing non-terminal build
for the PR, push the reserved branch, only on push success persist a new
`Pending` row, then post an acknowledgement reply. Push failure aborts
before the new row is written. -/
def command_try_build (env : Env) (repoName : GithubRepoName)
    (db : List TryBuild) (pr : PullRequest) (author : String) :
    List TryBuild × List Effect × Except String Unit :=
  let db1 := cancelFirstNonTerminal repoName pr.number db
  match env.pushBranch repoName pr.number with
  | Except.error e =>
      (db1, [Effect.pushBranch repoName pr.number], Except.error e)
  | Except.ok _ =>
      let db2 := db1 ++ [mkPendingBuild repoName pr author]
      (db2,
       [Effect.pushBranch repoName pr.number,
        Effect.postComment pr.number tryAckText],
       env.postComment pr.number tryAckText)

/-- Modelled from the spec: `command_ping` (missing `ping.rs`) posts a
liveness reply to the pull request. -/
def command_ping (env : Env) (pr : PullRequest) :
    List Effect × Except String Unit :=
  ([Effect.postComment pr.number pongText], env.postComment pr.number pongText)

/-- Execute one successfully parsed command (the `Ok` arm of the loop in
`handle_comment`). -/
def execCommand (env : Env) (repoName : GithubRepoName) (db : List TryBuild)
    (pr : PullRequest) (author : String) :
    BorsCommand → List TryBuild × List Effect × Except String Unit
  | BorsCommand.ping =>
      let r := command_ping env pr
      (db, r.1, r.2)
  | BorsCommand.tryBuild => command_try_build env repoName db pr author

/-- The command loop of `handle_comment`: execute parse results in order.
A hard execution error stops the loop and is returned with context
"Cannot execute Bors command"; a parse error is downgraded to one reply
comment (posting failure is returned with context
"Could not reply to PR comment"), and the loop continues. -/
def execCommands (env : Env) (repoName : GithubRepoName) (pr : PullRequest)
    (author : String) :
    List TryBuild → List (Except CommandParseError BorsCommand) →
    List TryBuild × List Effect × Except String Unit
  | db, [] => (db, [], Except.ok ())
  | db, Except.ok cmd :: rest =>
    let r := execCommand env repoName db pr author cmd
    match r.2.2 with
    | Except.error e =>
        (r.1, r.2.1, Except.error (withContext "Cannot execute Bors command" e))
    | Except.ok _ =>
        let r2 := execCommands env repoName pr author r.1 rest
        (r2.1, r.2.1 ++ r2.2.1, r2.2.2)
  | db, Except.error perr :: rest =>
    let msg := parseErrorMessage perr
    match env.postComment pr.number msg with
    | Except.error e =>
        (db, [Effect.postComment pr.number msg],
         Except.error (withContext "Could not reply to PR comment" e))
    | Except.ok _ =>
        let r2 := execCommands env repoName pr author db rest
        (r2.1, Effect.postComment pr.number msg :: r2.2.1, r2.2.2)

/-- `handle_comment`: parse the comment, fetch the live pull-request
snapshot (propagating a fetch failure as-is), then execute the parsed
results in order. -/
def handle_comment (env : Env) (repoName : GithubRepoName)
    (db : List TryBuild) (comment : PullRequestComment) :
    List TryBuild × List Effect × Except String Unit :=
  let commands := parse_commands comment.text
  match env.getPullRequest comment.prNumber with
  | Except.error e =>
      (db, [Effect.getPullRequest comment.prNumber], Except.error e)
  | Except.ok pr =>
      let r := execCommands env repoName pr comment.author db commands
      (r.1, Effect.getPullRequest comment.prNumber :: r.2.1, r.2.2)

/-- Does a build row own the given branch / external run id? -/
def matchesBuild (repo : GithubRepoName) (branch : String) (extId : Nat)
    (b : TryBuild) : Bool :=
  decide (b.repository = repo) && decide (b.branchName = branch) &&
    decide (extId ∈ b.externalIds)

/-- Modelled from the spec: `onWorkflowStarted` (missing `workflow.rs`).
Find the tracked build in the repository whose branch name matches; if it
is currently `Pending`, transition it to `Running` and record the external
id; otherwise no-op. -/
def startWorkflow (repo : GithubRepoName) (branch : String) (extId : Nat) :
    List TryBuild → List TryBuild
  | [] => []
  | b :: rest =>
    if b.repository = repo ∧ b.branchName = branch then
      if b.status = BuildStatus.pending then
        { b with status := BuildStatus.running
                 externalIds := b.externalIds ++ [extId] } :: rest
      else b :: rest
    else b :: startWorkflow repo branch extId rest

/-- `handle_workflow_started` applied to the persisted build set. -/
def handle_workflow_started (db : List TryBuild)
    (p : WorkflowStartedPayload) : List TryBuild :=
  startWorkflow p.repository p.branch p.externalId db

/-- Modelled from the spec: the completion arm of the correlator (missing
`workflow.rs`). Find the tracked build owning the branch / external id; if
it is already terminal, no-op (duplicate-delivery safety); otherwise
transition to `Succeeded` or `Failed` per `succeeded` and post exactly one
result reply to the originating pull request. -/
def completeBuild (env : Env) (repo : GithubRepoName) (branch : String)
    (extId : Nat) (succeeded : Bool) :
    List TryBuild → List TryBuild × List Effect × Except String Unit
  | [] => ([], [], Except.ok ())
  | b :: rest =>
    if matchesBuild repo branch extId b then
      if b.status.isTerminal then (b :: rest, [], Except.ok ())
      else
        let s := if succeeded then BuildStatus.succeeded else BuildStatus.failed
        let msg := resultText extId succeeded
        ({ b with status := s } :: rest,
         [Effect.postComment b.prNumber msg],
         env.postComment b.prNumber msg)
    else
      let r := completeBuild env repo branch extId succeeded rest
      (b :: r.1, r.2.1, r.2.2)

/-- `handle_workflow_completed` applied to the persisted build set. -/
def handle_workflow_completed (env : Env) (db : List TryBuild)
    (p : WorkflowCompletedPayload) :
    List TryBuild × List Effect × Except String Unit :=
  completeBuild env p.repository p.branch p.externalId p.succeeded db

/-- `handle_check_suite_completed` applied to the persisted build set. -/
def handle_check_suite_completed (env : Env) (db : List TryBuild)
    (p : CheckSuiteCompletedPayload) :
    List TryBuild × List Effect × Except String Unit :=
  completeBuild env p.repository p.branch p.externalId p.succeeded db

/-- The registry plus persisted state owned by the dispatcher
(`BorsState`): the set of registered repositories, the bot's own identity,
and the persisted try builds. -/
structure BorsState where
  repos : List GithubRepoName
  botUser : String
  db : List TryBuild
deriving DecidableEq, Repr

/-- Modelled from the spec: `is_comment_internal` (a `BorsState` trait
method, implementation not in the core source): the comment's author
matches the bot's own identity. -/
def is_comment_internal (state : BorsState) (c : PullRequestComment) : Bool :=
  decide (c.author = state.botUser)

/-- `get_repo_state`: whether the repository is present in the registry
(absence is logged as a warning and yields `None`). -/
def get_repo_state (state : BorsState) (repo : GithubRepoName) : Bool :=
  decide (repo ∈ state.repos)

/-- `handle_bors_event`: the top-level dispatcher. Bot-authored comments
are dropped before any other processing; events for unregistered
repositories are dropped; each branch catches its handler's error (it is
only logged) and the dispatcher returns `Ok(())`. -/
def handle_bors_event (env : Env) (state : BorsState) :
    BorsEvent → BorsState × List Effect × Except String Unit
  | BorsEvent.comment c =>
    if is_comment_internal state c then
      (state, [], Except.ok ())
    else if get_repo_state state c.repository then
      let r := handle_comment env c.repository state.db c
      ({ state with db := r.1 }, r.2.1, Except.ok ())
    else (state, [], Except.ok ())
  | BorsEvent.installationsChanged =>
    match env.reloadRepositories with
    | Except.error _ => (state, [Effect.reloadRepositories], Except.ok ())
    | Except.ok repos =>
        ({ state with repos := repos }, [Effect.reloadRepositories],
         Except.ok ())
  | BorsEvent.workflowStarted p =>
    if get_repo_state state p.repository then
      ({ state with db := handle_workflow_started state.db p }, [],
       Except.ok ())
    else (state, [], Except.ok ())
  | BorsEvent.workflowCompleted p =>
    if get_repo_state state p.repository then
      let r := handle_workflow_completed env state.db p
      ({ state with db := r.1 }, r.2.1, Except.ok ())
    else (state, [], Except.ok ())
  | BorsEvent.checkSuiteCompleted p =>
    if get_repo_state state p.repository then
      let r := handle_check_suite_completed env state.db p
      ({ state with db := r.1 }, r.2.1, Except.ok ())
    else (state, [], Except.ok ())

/-- Decidable equality for `Except`, used to evaluate handler results. -/
instance exceptDecEq {ε α : Type} [DecidableEq ε] [DecidableEq α] :
    DecidableEq (Except ε α) := fun x y =>
  match x, y with
  | Except.ok a, Except.ok b =>
    if h : a = b then Decidable.isTrue (by rw [h])
    else Decidable.isFalse (fun hc => by cases hc; exact h rfl)
  | Except.ok _, Except.error _ => Decidable.isFalse (fun hc => by cases hc)
  | Except.error _, Except.ok _ => Decidable.isFalse (fun hc => by cases hc)
  | Except.error a, Except.error b =>
    if h : a = b then Decidable.isTrue (by rw [h])
    else Decidable.isFalse (fun hc => by cases hc; exact h rfl)

/-- A concrete repository, used to instantiate the theorems. -/
def repoA : GithubRepoName := ⟨"rust-lang", "rust"⟩

/-- An oracle in which every external call succeeds. -/
def happyEnv : Env :=
  { getPullRequest := fun n => Except.ok ⟨n, "head", "alice"⟩
    postComment := fun _ _ => Except.ok ()
    pushBranch := fun _ _ => Except.ok ()
    reloadRepositories := Except.ok [repoA] }

/-- An oracle in which fetching the pull-request snapshot fails. -/
def prFetchFailEnv : Env :=
  { happyEnv with getPullRequest := fun _ => Except.error "fetch failed" }

/-- An oracle in which posting a comment fails. -/
def postFailEnv : Env :=
  { happyEnv with postComment := fun _ _ => Except.error "post failed" }

/-- A concrete running try build for `repoA`, PR 1, external run 7. -/
def build0 : TryBuild :=
  ⟨repoA, 1, TRY_BRANCH_NAME, "alice", BuildStatus.running, 0, [7]⟩

/-- A concrete already-terminal try build for `repoA`, PR 1. -/
def buildDone : TryBuild :=
  ⟨repoA, 1, TRY_BRANCH_NAME, "alice", BuildStatus.succeeded, 0, [7]⟩

/-- The repository identity carried by an event, if any. -/
def eventRepo : BorsEvent → Option GithubRepoName
  | BorsEvent.comment c => some c.repository
  | BorsEvent.installationsChanged => none
  | BorsEvent.workflowStarted p => some p.repository
  | BorsEvent.workflowCompleted p => some p.repository
  | BorsEvent.checkSuiteCompleted p => some p.repository

/-- Is this effect a pull-request snapshot fetch? -/
def isGetPREffect : Effect → Bool
  | Effect.getPullRequest _ => true
  | _ => false

/-- Is this effect a posted comment? -/
def isPostEffect : Effect → Bool
  | Effect.postComment _ _ => true
  | _ => false

/-- Is this row a non-terminal build for `(repo, pr)`? -/
def isNonTerminalFor (repo : GithubRepoName) (pr : Nat) (b : TryBuild) : Bool :=
  decide (b.repository = repo) && decide (b.prNumber = pr) && !b.status.isTerminal

/-- Is this row a `Pending` build for `(repo, pr)`? -/
def isPendingFor (repo : GithubRepoName) (pr : Nat) (b : TryBuild) : Bool :=
  decide (b.repository = repo) && decide (b.prNumber = pr) &&
    decide (b.status = BuildStatus.pending)

/-- The persisted-state invariant: at most one non-terminal try build per
`(repository, pr_number)`. -/
def atMostOneLive (db : List TryBuild) : Prop :=
  ∀ repo pr, List.countP (isNonTerminalFor repo pr) db ≤ 1

/-- A second concrete repository, absent from the registry fixtures. -/
def repoB : GithubRepoName := ⟨"other", "repo"⟩

/-- Dispatch returns `Ok(())` whatever the handlers do. -/
theorem dispatch_result_is_ok (env : Env) (state : BorsState) (e : BorsEvent) :
    (handle_bors_event env state e).2.2 = Except.ok () := by
  cases e <;> simp only [handle_bors_event] <;> (repeat' split) <;> rfl

/-- C1: `handle_bors_event` returns normally with a non-error result for
every event; every branch catches its handler's failure, so no failure
propagates to the caller. -/
theorem handle_bors_event_ok (env : Env) (state : BorsState) (e : BorsEvent) :
    (handle_bors_event env state e).2.2 = Except.ok () :=
  dispatch_result_is_ok env state e

/-- C2: a comment authored by the bot's own identity is dropped before any
other processing: the registry state is unchanged, no external effect is
performed and the result is `Ok(())`. -/
theorem bot_comment_dropped (env : Env) (state : BorsState)
    (c : PullRequestComment) (h : is_comment_internal state c = true) :
    handle_bors_event env state (BorsEvent.comment c) =
      (state, [], Except.ok ()) := by
  simp [handle_bors_event, h]

/-- Witness for C2: a concrete comment authored by the bot is dropped. -/
theorem bot_comment_dropped_witness :
    handle_bors_event happyEnv ⟨[repoA], "bors", []⟩
        (BorsEvent.comment ⟨repoA, "bors", 1, "@bors ping"⟩) =
      (⟨[repoA], "bors", []⟩, [], Except.ok ()) :=
  bot_comment_dropped happyEnv ⟨[repoA], "bors", []⟩
    ⟨repoA, "bors", 1, "@bors ping"⟩ (by decide)

/-- C7: the command interpreter is a pure function with the three
specified outcomes on `"@bors ping"`, `"@bors"` and `"@bors frobnicate"`. -/
theorem parse_commands_spec :
    parse_commands "@bors ping" = [Except.ok BorsCommand.ping] ∧
    parse_commands "@bors" = [Except.error CommandParseError.missingCommand] ∧
    parse_commands "@bors frobnicate" =
      [Except.error (CommandParseError.unknownCommand "frobnicate")] :=
  ⟨by decide, by decide, by decide⟩

/-- C8: an event for a repository absent from the registry is dropped:
the state is unchanged, no external effect is performed and the result is
`Ok(())`. -/
theorem unknown_repo_dropped (env : Env) (state : BorsState) (e : BorsEvent)
    (r : GithubRepoName) (hr : eventRepo e = some r)
    (h : get_repo_state state r = false) :
    handle_bors_event env state e = (state, [], Except.ok ()) := by
  cases e with
  | comment c =>
    simp only [eventRepo, Option.some.injEq] at hr
    subst hr
    cases hb : is_comment_internal state c with
    | true => simp [handle_bors_event, hb]
    | false => simp [handle_bors_event, hb, h]
  | installationsChanged => simp [eventRepo] at hr
  | workflowStarted p =>
    simp only [eventRepo, Option.some.injEq] at hr
    subst hr
    simp [handle_bors_event, h]
  | workflowCompleted p =>
    simp only [eventRepo, Option.some.injEq] at hr
    subst hr
    simp [handle_bors_event, h]
  | checkSuiteCompleted p =>
    simp only [eventRepo, Option.some.injEq] at hr
    subst hr
    simp [handle_bors_event, h]

/-- Witness for C8: a concrete comment event for an unregistered
repository is dropped with no state change and no effects. -/
theorem unknown_repo_dropped_witness :
    handle_bors_event happyEnv ⟨[repoA], "bors", []⟩
        (BorsEvent.comment ⟨repoB, "alice", 1, "@bors ping"⟩) =
      (⟨[repoA], "bors", []⟩, [], Except.ok ()) :=
  unknown_repo_dropped happyEnv ⟨[repoA], "bors", []⟩
    (BorsEvent.comment ⟨repoB, "alice", 1, "@bors ping"⟩) repoB rfl (by decide)

/-- C9: when posting the reply for a parse error fails, `handle_comment`
returns that error (with its context) at once: the reply attempt is the
only effect and no later command in the comment is attempted. -/
theorem parse_error_reply_failure_stops (env : Env) (repoName : GithubRepoName)
    (pr : PullRequest) (author : String) (db : List TryBuild)
    (perr : CommandParseError)
    (rest : List (Except CommandParseError BorsCommand)) (e : String)
    (h : env.postComment pr.number (parseErrorMessage perr) = Except.error e) :
    execCommands env repoName pr author db (Except.error perr :: rest) =
      (db, [Effect.postComment pr.number (parseErrorMessage perr)],
       Except.error (withContext "Could not reply to PR comment" e)) := by
  simp only [execCommands, h]

/-- Witness for C9: with a failing comment poster, a parse error stops the
batch and the pending `ping` is never attempted. -/
theorem parse_error_reply_failure_stops_witness :
    execCommands postFailEnv repoA ⟨1, "h", "a"⟩ "alice" []
        [Except.error CommandParseError.missingCommand,
         Except.ok BorsCommand.ping] =
      ([], [Effect.postComment 1 "Missing command."],
       Except.error (withContext "Could not reply to PR comment"
         "post failed")) := by
  have h := parse_error_reply_failure_stops postFailEnv repoA ⟨1, "h", "a"⟩
    "alice" [] CommandParseError.missingCommand [Except.ok BorsCommand.ping]
    "post failed" rfl
  simpa using h

/-- Executing a single command never fetches a pull-request snapshot. -/
theorem execCommand_trace_no_getPR (env : Env) (repoName : GithubRepoName)
    (db : List TryBuild) (pr : PullRequest) (author : String)
    (cmd : BorsCommand) :
    List.countP isGetPREffect (execCommand env repoName db pr author cmd).2.1
      = 0 := by
  cases cmd with
  | ping => rfl
  | tryBuild =>
    simp only [execCommand, command_try_build]
    split <;> rfl

/-- The command loop never fetches a pull-request snapshot. -/
theorem execCommands_trace_no_getPR (env : Env) (repoName : GithubRepoName)
    (pr : PullRequest) (author : String)
    (cmds : List (Except CommandParseError BorsCommand)) (db : List TryBuild) :
    List.countP isGetPREffect (execCommands env repoName pr author db cmds).2.1
      = 0 := by
  induction cmds generalizing db with
  | nil => rfl
  | cons hd rest ih =>
    cases hd with
    | ok cmd =>
      simp only [execCommands]
      split
      · exact execCommand_trace_no_getPR env repoName db pr author cmd
      · simp [List.countP_append, ih, execCommand_trace_no_getPR]
    | error perr =>
      simp only [execCommands]
      split
      · rfl
      · simp [List.countP_cons, ih, isGetPREffect]

/-- C10: `handle_comment` fetches the pull-request snapshot exactly once,
as its first external effect (before any command executes, and also when
the comment parses to zero commands); if the fetch fails, that error is
returned with no command executed and no reply posted. -/
theorem pull_request_fetched_once (env : Env) (repoName : GithubRepoName)
    (db : List TryBuild) (c : PullRequestComment) :
    (handle_comment env repoName db c).2.1.head? =
      some (Effect.getPullRequest c.prNumber) ∧
    List.countP isGetPREffect (handle_comment env repoName db c).2.1 = 1 ∧
    (∀ e, env.getPullRequest c.prNumber = Except.error e →
      handle_comment env repoName db c =
        (db, [Effect.getPullRequest c.prNumber], Except.error e)) := by
  rcases hpr : env.getPullRequest c.prNumber with e | pr
  · refine ⟨?_, ?_, ?_⟩
    · simp [handle_comment, hpr]
    · simp [handle_comment, hpr, List.countP_cons, isGetPREffect]
    · intro e2 h2
      cases h2
      simp [handle_comment, hpr]
  · refine ⟨?_, ?_, ?_⟩
    · simp [handle_comment, hpr]
    · simp [handle_comment, hpr, List.countP_cons, isGetPREffect,
        execCommands_trace_no_getPR]
    · intro e2 h2
      simp at h2

/-- Witness for C10: with a failing snapshot fetch, the fetch is the only
effect and the error is returned. -/
theorem pull_request_fetched_once_witness :
    handle_comment prFetchFailEnv repoA [] ⟨repoA, "alice", 2, "@bors ping"⟩ =
      ([], [Effect.getPullRequest 2], Except.error "fetch failed") :=
  (pull_request_fetched_once prFetchFailEnv repoA []
    ⟨repoA, "alice", 2, "@bors ping"⟩).2.2 "fetch failed" rfl

/-- C6: a hard execution error of a successfully parsed command makes the
command loop return that error (with context) at once — the remaining
commands are never consulted — and the dispatcher then swallows the
failure, returning `Ok(())`. -/
theorem exec_error_fail_fast (env : Env) (repoName : GithubRepoName)
    (pr : PullRequest) (author : String) (db : List TryBuild)
    (cmd : BorsCommand) (rest : List (Except CommandParseError BorsCommand))
    (e : String)
    (h : (execCommand env repoName db pr author cmd).2.2 = Except.error e) :
    execCommands env repoName pr author db (Except.ok cmd :: rest) =
      ((execCommand env repoName db pr author cmd).1,
       (execCommand env repoName db pr author cmd).2.1,
       Except.error (withContext "Cannot execute Bors command" e)) ∧
    (∀ (state : BorsState) (c : PullRequestComment),
      (handle_bors_event env state (BorsEvent.comment c)).2.2 =
        Except.ok ()) := by
  refine ⟨?_, fun state c => dispatch_result_is_ok env state _⟩
  simp only [execCommands, h]

/-- Witness for C6: a failing `ping` reply stops the batch before the
following `try` command, and the dispatcher still reports `Ok(())`. -/
theorem exec_error_fail_fast_witness :
    execCommands postFailEnv repoA ⟨1, "h", "a"⟩ "alice" []
        [Except.ok BorsCommand.ping, Except.ok BorsCommand.tryBuild] =
      ([], [Effect.postComment 1 pongText],
       Except.error (withContext "Cannot execute Bors command"
         "post failed")) ∧
    (handle_bors_event postFailEnv ⟨[repoA], "bors", []⟩
        (BorsEvent.comment ⟨repoA, "alice", 1, "@bors ping\n@bors try"⟩)).2.2 =
      Except.ok () := by
  have h := exec_error_fail_fast postFailEnv repoA ⟨1, "h", "a"⟩ "alice" []
    BorsCommand.ping [Except.ok BorsCommand.tryBuild] "post failed" rfl
  exact ⟨h.1.trans (by rfl), h.2 ⟨[repoA], "bors", []⟩ _⟩

/-- C5: a parse error yields exactly one reply with the exact specified
text and the loop continues with the remaining commands; concretely,
`"@bors ping"` followed by `"@bors bogus"` posts the ping reply and then
exactly one `Unknown command "bogus".` reply, in that order. -/
theorem parse_error_single_reply (env : Env) (repoName : GithubRepoName)
    (pr : PullRequest) (author : String) (db : List TryBuild)
    (perr : CommandParseError)
    (rest : List (Except CommandParseError BorsCommand))
    (h : env.postComment pr.number (parseErrorMessage perr) = Except.ok ()) :
    execCommands env repoName pr author db (Except.error perr :: rest) =
      ((execCommands env repoName pr author db rest).1,
       Effect.postComment pr.number (parseErrorMessage perr) ::
         (execCommands env repoName pr author db rest).2.1,
       (execCommands env repoName pr author db rest).2.2) ∧
    parseErrorMessage CommandParseError.missingCommand = "Missing command." ∧
    (∀ t, parseErrorMessage (CommandParseError.unknownCommand t) =
      "Unknown command \"" ++ t ++ "\".") ∧
    handle_comment happyEnv repoA []
        ⟨repoA, "alice", 1, "@bors ping\n@bors bogus"⟩ =
      ([], [Effect.getPullRequest 1, Effect.postComment 1 pongText,
            Effect.postComment 1 "Unknown command \"bogus\"."],
       Except.ok ()) := by
  refine ⟨?_, rfl, fun t => rfl, by decide⟩
  simp only [execCommands, h]

/-- Witness for C5: a concrete unknown command posts exactly one reply
with the exact text and the following `ping` is still executed. -/
theorem parse_error_single_reply_witness :
    execCommands happyEnv repoA ⟨1, "h", "a"⟩ "alice" []
        [Except.error (CommandParseError.unknownCommand "bogus"),
         Except.ok BorsCommand.ping] =
      ([], [Effect.postComment 1 "Unknown command \"bogus\".",
            Effect.postComment 1 pongText], Except.ok ()) := by
  have h := parse_error_single_reply happyEnv repoA ⟨1, "h", "a"⟩ "alice" []
    (CommandParseError.unknownCommand "bogus") [Except.ok BorsCommand.ping] rfl
  exact h.1.trans (by rfl)

/-- `matchesBuild` ignores the status field. -/
theorem matchesBuild_set_status (repo : GithubRepoName) (branch : String)
    (extId : Nat) (b : TryBuild) (s : BuildStatus) :
    matchesBuild repo branch extId { b with status := s } =
      matchesBuild repo branch extId b := rfl

/-- A terminal build row is left untouched, at its position, by the
completion handler. -/
theorem completeBuild_preserves_terminal (env : Env) (repo : GithubRepoName)
    (branch : String) (extId : Nat) (succeeded : Bool) (b : TryBuild)
    (hterm : b.status.isTerminal = true) :
    ∀ (db : List TryBuild) (i : Nat), db.get? i = some b →
      (completeBuild env repo branch extId succeeded db).1.get? i = some b := by
  intro db
  induction db with
  | nil => intro i hb; cases hb
  | cons hd rest ih =>
    intro i hb
    simp only [completeBuild]
    split
    · split
      · exact hb
      · rename_i hnt
        cases i with
        | zero =>
          simp only [List.get?_cons_zero, Option.some.injEq] at hb
          subst hb
          exact absurd hterm hnt
        | succ n => exact hb
    · cases i with
      | zero => exact hb
      | succ n =>
        simp only [List.get?_cons_succ] at hb ⊢
        exact ih n hb

/-- A terminal build row is left untouched, at its position, by the
workflow-started handler. -/
theorem startWorkflow_preserves_terminal (repo : GithubRepoName)
    (branch : String) (extId : Nat) (b : TryBuild)
    (hterm : b.status.isTerminal = true) :
    ∀ (db : List TryBuild) (i : Nat), db.get? i = some b →
      (startWorkflow repo branch extId db).get? i = some b := by
  intro db
  induction db with
  | nil => intro i hb; cases hb
  | cons hd rest ih =>
    intro i hb
    simp only [startWorkflow]
    split
    · split
      · rename_i hpend
        cases i with
        | zero =>
          simp only [List.get?_cons_zero, Option.some.injEq] at hb
          subst hb
          rw [hpend] at hterm
          cases hterm
        | succ n => exact hb
      · exact hb
    · cases i with
      | zero => exact hb
      | succ n =>
        simp only [List.get?_cons_succ] at hb ⊢
        exact ih n hb

/-- A terminal build row is left untouched, at its position, when a prior
non-terminal build is cancelled. -/
theorem cancelFirst_preserves_terminal (repo : GithubRepoName) (pr : Nat)
    (b : TryBuild) (hterm : b.status.isTerminal = true) :
    ∀ (db : List TryBuild) (i : Nat), db.get? i = some b →
      (cancelFirstNonTerminal repo pr db).get? i = some b := by
  intro db
  induction db with
  | nil => intro i hb; cases hb
  | cons hd rest ih =>
    intro i hb
    simp only [cancelFirstNonTerminal]
    split
    · rename_i hc
      cases i with
      | zero =>
        simp only [List.get?_cons_zero, Option.some.injEq] at hb
        subst hb
        rw [hterm] at hc
        cases hc.2.2
      | succ n => exact hb
    · cases i with
      | zero => exact hb
      | succ n =>
        simp only [List.get?_cons_succ] at hb ⊢
        exact ih n hb

/-- `cancelFirstNonTerminal` preserves the length of the build set. -/
theorem cancelFirst_length (repo : GithubRepoName) (pr : Nat) :
    ∀ (db : List TryBuild),
      (cancelFirstNonTerminal repo pr db).length = db.length := by
  intro db
  induction db with
  | nil => rfl
  | cons hd rest ih =>
    simp only [cancelFirstNonTerminal]
    split
    · simp
    · simp [ih]

/-- A terminal build row is left untouched, at its position, by the
try-build orchestrator. -/
theorem command_try_build_preserves_terminal (env : Env)
    (repo : GithubRepoName) (db : List TryBuild) (pr : PullRequest)
    (requester : String) (b : TryBuild) (hterm : b.status.isTerminal = true)
    (i : Nat) (hb : db.get? i = some b) :
    (command_try_build env repo db pr requester).1.get? i = some b := by
  have hc := cancelFirst_preserves_terminal repo pr.number b hterm db i hb
  have hlen : i < (cancelFirstNonTerminal repo pr.number db).length := by
    rcases List.get?_eq_some.mp hc with ⟨hl, _⟩
    exact hl
  simp only [command_try_build]
  split
  · exact hc
  · rw [List.get?_append hlen]
    exact hc

/-- When every matching build is already terminal, a completion event is a
no-op: unchanged state, no effects, `Ok(())`. -/
theorem completeBuild_terminal_noop (env : Env) (repo : GithubRepoName)
    (branch : String) (extId : Nat) (succeeded : Bool) :
    ∀ (db : List TryBuild),
      (∀ b ∈ db, matchesBuild repo branch extId b = true →
        b.status.isTerminal = true) →
      completeBuild env repo branch extId succeeded db =
        (db, [], Except.ok ()) := by
  intro db
  induction db with
  | nil => intro _; rfl
  | cons hd rest ih =>
    intro h
    simp only [completeBuild]
    split
    · rename_i hm
      split
      · rfl
      · rename_i hnt
        exact absurd (h hd (List.mem_cons_self hd rest) hm) hnt
    · rw [ih (fun b hb hmb => h b (List.mem_cons_of_mem hd hb) hmb)]

/-- A second delivery of the same completion event is a no-op (the first
left the matched build terminal), and the first posts at most one reply. -/
theorem completeBuild_duplicate (env : Env) (repo : GithubRepoName)
    (branch : String) (extId : Nat) (succeeded : Bool) :
    ∀ (db : List TryBuild),
      completeBuild env repo branch extId succeeded
          (completeBuild env repo branch extId succeeded db).1 =
        ((completeBuild env repo branch extId succeeded db).1, [],
         Except.ok ()) ∧
      (completeBuild env repo branch extId succeeded db).2.1.length ≤ 1 := by
  intro db
  induction db with
  | nil => exact ⟨rfl, Nat.zero_le 1⟩
  | cons hd rest ih =>
    by_cases hm : matchesBuild repo branch extId hd = true
    · by_cases ht : hd.status.isTerminal = true
      · have h1 : completeBuild env repo branch extId succeeded (hd :: rest) =
            (hd :: rest, [], Except.ok ()) := by
          simp [completeBuild, hm, ht]
        refine ⟨?_, ?_⟩
        · rw [h1]
          exact h1
        · rw [h1]
          exact Nat.zero_le 1
      · have h1 : completeBuild env repo branch extId succeeded (hd :: rest) =
            ({ hd with status :=
                if succeeded then BuildStatus.succeeded else BuildStatus.failed }
               :: rest,
             [Effect.postComment hd.prNumber (resultText extId succeeded)],
             env.postComment hd.prNumber (resultText extId succeeded)) := by
          simp [completeBuild, hm, ht]
        have hm2 : matchesBuild repo branch extId
            { hd with status :=
              if succeeded then BuildStatus.succeeded else BuildStatus.failed }
            = true := by
          rw [matchesBuild_set_status]
          exact hm
        have ht2 : ({ hd with status :=
            if succeeded then BuildStatus.succeeded
            else BuildStatus.failed } : TryBuild).status.isTerminal = true := by
          cases succeeded <;> rfl
        constructor
        · rw [h1]
          simp [completeBuild, hm2, ht2]
        · rw [h1]
          exact Nat.le_refl 1
    · have h1 : completeBuild env repo branch extId succeeded (hd :: rest) =
          (hd :: (completeBuild env repo branch extId succeeded rest).1,
           (completeBuild env repo branch extId succeeded rest).2.1,
           (completeBuild env repo branch extId succeeded rest).2.2) := by
        simp [completeBuild, hm]
      constructor
      · rw [h1]
        simp only [completeBuild, hm]
        simp [hm, ih.1]
      · rw [h1]
        exact ih.2

/-- C4: a terminal try build never transitions on any further event (it
is untouched, at its position, by completion events, workflow-started
events and new `Try` commands); a completion event whose matching builds
are already terminal is a no-op; and a duplicate delivery of the same
completion event changes nothing and posts no second reply, so two
deliveries produce at most the first delivery's single reply in total. -/
theorem terminal_builds_frozen (env : Env) (repo : GithubRepoName)
    (branch : String) (extId : Nat) (succeeded : Bool) (db : List TryBuild) :
    (∀ i b, db.get? i = some b → b.status.isTerminal = true →
      ((completeBuild env repo branch extId succeeded db).1.get? i = some b ∧
       (startWorkflow repo branch extId db).get? i = some b ∧
       ∀ (pr : PullRequest) (requester : String),
         (command_try_build env repo db pr requester).1.get? i = some b)) ∧
    ((∀ b ∈ db, matchesBuild repo branch extId b = true →
        b.status.isTerminal = true) →
      completeBuild env repo branch extId succeeded db =
        (db, [], Except.ok ())) ∧
    completeBuild env repo branch extId succeeded
        (completeBuild env repo branch extId succeeded db).1 =
      ((completeBuild env repo branch extId succeeded db).1, [],
       Except.ok ()) ∧
    (completeBuild env repo branch extId succeeded db).2.1.length ≤ 1 := by
  refine ⟨fun i b hb hterm => ⟨?_, ?_, fun pr requester => ?_⟩, ?_, ?_, ?_⟩
  · exact completeBuild_preserves_terminal env repo branch extId succeeded b
      hterm db i hb
  · exact startWorkflow_preserves_terminal repo branch extId b hterm db i hb
  · exact command_try_build_preserves_terminal env repo db pr requester b
      hterm i hb
  · exact completeBuild_terminal_noop env repo branch extId succeeded db
  · exact (completeBuild_duplicate env repo branch extId succeeded db).1
  · exact (completeBuild_duplicate env repo branch extId succeeded db).2

/-- Witness for C4: a concrete terminal build is untouched by a matching
completion event, which is a no-op with no reply. -/
theorem terminal_builds_frozen_witness :
    (completeBuild happyEnv repoA TRY_BRANCH_NAME 7 true [buildDone]).1.get? 0
      = some buildDone ∧
    completeBuild happyEnv repoA TRY_BRANCH_NAME 7 true [buildDone] =
      ([buildDone], [], Except.ok ()) := by
  have h := terminal_builds_frozen happyEnv repoA TRY_BRANCH_NAME 7 true
    [buildDone]
  exact ⟨(h.1 0 buildDone rfl (by decide)).1, h.2.1 (by decide)⟩

/-- Characterization of `isNonTerminalFor`. -/
theorem isNonTerminalFor_iff (repo : GithubRepoName) (pr : Nat)
    (b : TryBuild) :
    isNonTerminalFor repo pr b = true ↔
      (b.repository = repo ∧ b.prNumber = pr ∧ b.status.isTerminal = false) := by
  simp [isNonTerminalFor, Bool.and_eq_true, decide_eq_true_iff,
    Bool.not_eq_true', and_assoc]

/-- A pending build for a pair is in particular non-terminal for it. -/
theorem isPendingFor_nonTerminal (repo : GithubRepoName) (pr : Nat)
    (b : TryBuild) (h : isPendingFor repo pr b = true) :
    isNonTerminalFor repo pr b = true := by
  simp only [isPendingFor, Bool.and_eq_true, decide_eq_true_iff] at h
  refine (isNonTerminalFor_iff repo pr b).mpr ⟨h.1.1, h.1.2, ?_⟩
  rw [h.2]
  rfl

/-- Cancelling the first live build never increases the number of live
builds counted for any pair. -/
theorem cancelFirst_countP_le (repo : GithubRepoName) (pr : Nat)
    (r : GithubRepoName) (q : Nat) :
    ∀ (db : List TryBuild),
      List.countP (isNonTerminalFor r q) (cancelFirstNonTerminal repo pr db) ≤
        List.countP (isNonTerminalFor r q) db := by
  intro db
  induction db with
  | nil => exact Nat.le_refl 0
  | cons hd rest ih =>
    simp only [cancelFirstNonTerminal]
    split
    · have hz : isNonTerminalFor r q
          { hd with status := BuildStatus.cancelled } = false := by
        simp [isNonTerminalFor, BuildStatus.isTerminal]
      simp only [List.countP_cons, hz]
      simp only [if_neg (by simp : ¬(false = true))]
      exact Nat.le_add_right _ _
    · simp only [List.countP_cons]
      exact Nat.add_le_add_right ih _

/-- If at most one live build exists for the pair, cancelling the first
one leaves zero live builds for that pair. -/
theorem cancelFirst_countP_self (repo : GithubRepoName) (pr : Nat) :
    ∀ (db : List TryBuild),
      List.countP (isNonTerminalFor repo pr) db ≤ 1 →
      List.countP (isNonTerminalFor repo pr)
        (cancelFirstNonTerminal repo pr db) = 0 := by
  intro db
  induction db with
  | nil => intro _; rfl
  | cons hd rest ih =>
    intro h
    simp only [cancelFirstNonTerminal]
    split
    · rename_i hc
      have hhd : isNonTerminalFor repo pr hd = true :=
        (isNonTerminalFor_iff repo pr hd).mpr hc
      rw [List.countP_cons, hhd] at h
      simp at h
      have hz : isNonTerminalFor repo pr
          { hd with status := BuildStatus.cancelled } = false := by
        simp [isNonTerminalFor, BuildStatus.isTerminal]
      have hr : List.countP (isNonTerminalFor repo pr) rest = 0 :=
        List.countP_eq_zero.mpr (fun b hb => by simp [h b hb])
      rw [List.countP_cons, hz, hr]
      simp
    · rename_i hc
      have hhd : isNonTerminalFor repo pr hd = false :=
        Bool.eq_false_iff.mpr
          (fun hb => hc ((isNonTerminalFor_iff repo pr hd).mp hb))
      rw [List.countP_cons, hhd] at h
      simp at h
      rw [List.countP_cons, hhd]
      simp [ih h]

/-- After cancelling the only live build for the pair, no pending build
remains for it. -/
theorem cancelFirst_pending_zero (repo : GithubRepoName) (pr : Nat)
    (db : List TryBuild)
    (h : List.countP (isNonTerminalFor repo pr) db ≤ 1) :
    List.countP (isPendingFor repo pr)
      (cancelFirstNonTerminal repo pr db) = 0 := by
  have h0 := cancelFirst_countP_self repo pr db h
  have hm : List.countP (isPendingFor repo pr)
      (cancelFirstNonTerminal repo pr db) ≤
      List.countP (isNonTerminalFor repo pr)
        (cancelFirstNonTerminal repo pr db) :=
    List.countP_mono_left (fun b _ hb => isPendingFor_nonTerminal repo pr b hb)
  omega

/-- The workflow-started transition (`Pending` to `Running`) preserves the
number of live builds counted for every pair. -/
theorem startWorkflow_countP (repo : GithubRepoName) (branch : String)
    (extId : Nat) (r : GithubRepoName) (q : Nat) :
    ∀ (db : List TryBuild),
      List.countP (isNonTerminalFor r q) (startWorkflow repo branch extId db) =
        List.countP (isNonTerminalFor r q) db := by
  intro db
  induction db with
  | nil => rfl
  | cons hd rest ih =>
    simp only [startWorkflow]
    split
    · split
      · rename_i hpend
        simp only [List.countP_cons]
        have heq : isNonTerminalFor r q
            { hd with status := BuildStatus.running,
                      externalIds := hd.externalIds ++ [extId] } =
            isNonTerminalFor r q hd := by
          simp [isNonTerminalFor, hpend, BuildStatus.isTerminal]
        rw [heq]
      · rfl
    · simp only [List.countP_cons, ih]

/-- A completion transition never increases the number of live builds
counted for any pair. -/
theorem completeBuild_countP_le (env : Env) (repo : GithubRepoName)
    (branch : String) (extId : Nat) (succeeded : Bool) (r : GithubRepoName)
    (q : Nat) :
    ∀ (db : List TryBuild),
      List.countP (isNonTerminalFor r q)
          (completeBuild env repo branch extId succeeded db).1 ≤
        List.countP (isNonTerminalFor r q) db := by
  intro db
  induction db with
  | nil => exact Nat.le_refl 0
  | cons hd rest ih =>
    simp only [completeBuild]
    split
    · split
      · exact Nat.le_refl _
      · have hz : isNonTerminalFor r q
            { hd with status :=
              if succeeded then BuildStatus.succeeded
              else BuildStatus.failed } = false := by
          cases succeeded <;> simp [isNonTerminalFor, BuildStatus.isTerminal]
        simp only [List.countP_cons, hz]
        simp only [if_neg (by simp : ¬(false = true))]
        exact Nat.le_add_right _ _
    · simp only [List.countP_cons]
      exact Nat.add_le_add_right ih _

/-- On push success the orchestrator's resulting build set is the
cancelled prior set plus one fresh pending row. -/
theorem command_try_build_push_ok (env : Env) (repo : GithubRepoName)
    (db : List TryBuild) (pr : PullRequest) (requester : String)
    (hpush : env.pushBranch repo pr.number = Except.ok ()) :
    (command_try_build env repo db pr requester).1 =
      cancelFirstNonTerminal repo pr.number db ++
        [mkPendingBuild repo pr requester] := by
  simp [command_try_build, hpush]

/-- The orchestrator preserves the at-most-one-live-build invariant. -/
theorem command_try_build_invariant (env : Env) (repo : GithubRepoName)
    (db : List TryBuild) (pr : PullRequest) (requester : String)
    (h : atMostOneLive db) :
    atMostOneLive (command_try_build env repo db pr requester).1 := by
  intro r q
  simp only [command_try_build]
  split
  · exact le_trans (cancelFirst_countP_le repo pr.number r q db) (h r q)
  · simp only [List.countP_append]
    by_cases hrq : r = repo ∧ q = pr.number
    · obtain ⟨h1, h2⟩ := hrq
      rw [h1, h2]
      have hz := cancelFirst_countP_self repo pr.number db (h repo pr.number)
      rw [hz]
      have hone : List.countP (isNonTerminalFor repo pr.number)
          [mkPendingBuild repo pr requester] ≤ 1 :=
        le_trans (List.countP_le_length _) (Nat.le_refl 1)
      omega
    · have hnew : isNonTerminalFor r q (mkPendingBuild repo pr requester)
          = false := by
        rw [Bool.eq_false_iff]
        intro hb
        have hx := (isNonTerminalFor_iff r q _).mp hb
        exact hrq ⟨hx.1.symm, hx.2.1.symm⟩
      have hone : List.countP (isNonTerminalFor r q)
          [mkPendingBuild repo pr requester] = 0 := by
        simp [List.countP_cons, hnew]
      rw [hone]
      have := le_trans (cancelFirst_countP_le repo pr.number r q db) (h r q)
      omega

/-- With at most one live build for the pair, the live build present
before a `Try` command is marked `Cancelled` by the orchestrator. -/
theorem cancelFirst_cancels (repo : GithubRepoName) (pr : Nat) (b : TryBuild)
    (hbt : isNonTerminalFor repo pr b = true) :
    ∀ (db : List TryBuild),
      List.countP (isNonTerminalFor repo pr) db ≤ 1 → b ∈ db →
      { b with status := BuildStatus.cancelled } ∈
        cancelFirstNonTerminal repo pr db := by
  intro db
  induction db with
  | nil => intro _ hb; cases hb
  | cons hd rest ih =>
    intro h hb
    simp only [cancelFirstNonTerminal]
    split
    · rename_i hc
      cases hb with
      | head => exact List.mem_cons_self _ _
      | tail _ hbr =>
        exfalso
        have hhd : isNonTerminalFor repo pr hd = true :=
          (isNonTerminalFor_iff repo pr hd).mpr hc
        rw [List.countP_cons, hhd] at h
        simp at h
        exact absurd hbt (by simp [h b hbr])
    · rename_i hc
      cases hb with
      | head =>
        exact absurd ((isNonTerminalFor_iff repo pr b).mp hbt) hc
      | tail _ hbr =>
        have hhd : isNonTerminalFor repo pr hd = false :=
          Bool.eq_false_iff.mpr
            (fun hb2 => hc ((isNonTerminalFor_iff repo pr hd).mp hb2))
        rw [List.countP_cons, hhd] at h
        simp at h
        exact List.mem_cons_of_mem _ (ih h hbr)

/-- C3: the at-most-one-live-build invariant is preserved by every
operation on the build set (`Try` command, workflow started, completion),
and when `Try` runs with a successful push the prior live build for the
PR is marked `Cancelled` while exactly one `Pending` build for that PR
exists afterwards. -/
theorem try_build_invariant (env : Env) (repo : GithubRepoName)
    (pr : PullRequest) (requester : String) (db : List TryBuild)
    (h : atMostOneLive db) :
    atMostOneLive (command_try_build env repo db pr requester).1 ∧
    (∀ r br eid, atMostOneLive (startWorkflow r br eid db)) ∧
    (∀ r br eid s, atMostOneLive (completeBuild env r br eid s db).1) ∧
    (env.pushBranch repo pr.number = Except.ok () →
      (∀ b ∈ db, isNonTerminalFor repo pr.number b = true →
        { b with status := BuildStatus.cancelled } ∈
          (command_try_build env repo db pr requester).1) ∧
      List.countP (isPendingFor repo pr.number)
        (command_try_build env repo db pr requester).1 = 1) := by
  refine ⟨command_try_build_invariant env repo db pr requester h,
    fun r br eid r2 q2 => ?_, fun r br eid s r2 q2 => ?_, fun hpush => ?_⟩
  · rw [startWorkflow_countP r br eid r2 q2 db]
    exact h r2 q2
  · exact le_trans (completeBuild_countP_le env r br eid s r2 q2 db) (h r2 q2)
  · constructor
    · intro b hb hbt
      rw [command_try_build_push_ok env repo db pr requester hpush]
      exact List.mem_append_left _
        (cancelFirst_cancels repo pr.number b hbt db (h repo pr.number) hb)
    · rw [command_try_build_push_ok env repo db pr requester hpush]
      rw [List.countP_append,
        cancelFirst_pending_zero repo pr.number db (h repo pr.number)]
      have hnew : isPendingFor repo pr.number
          (mkPendingBuild repo pr requester) = true := by
        simp [isPendingFor, mkPendingBuild]
      simp [List.countP_cons, hnew]

/-- Witness for C3: with one running build for `(repoA, 1)`, a `Try`
command cancels it and leaves exactly one pending build for the pair. -/
theorem try_build_invariant_witness :
    { build0 with status := BuildStatus.cancelled } ∈
      (command_try_build happyEnv repoA [build0] ⟨1, "h", "a"⟩ "bob").1 ∧
    List.countP (isPendingFor repoA 1)
      (command_try_build happyEnv repoA [build0] ⟨1, "h", "a"⟩ "bob").1 = 1 := by
  have h := try_build_invariant happyEnv repoA ⟨1, "h", "a"⟩ "bob" [build0]
    (fun r q => le_trans (List.countP_le_length _) (Nat.le_refl 1))
  have h4 := h.2.2.2 rfl
  exact ⟨h4.1 build0 (List.mem_cons_self _ _) (by decide), h4.2⟩
